import Mathlib

set_option linter.unusedVariables false

/-! Verification of the core extraction and scheduling logic of the
ai-calendar-planner application (source files `app/planner.py`,
`app/routes.py`, `app/deepseek_parser.py`, `app/calendar_api.py`).
Strings are modelled as `List Char`; Python's `\s`, `\d` and `[a-zA-Z]`
character classes are modelled over ASCII; times are integer minutes
(every comparison in the source is `total_seconds() >= mins * 60`, which
on whole-minute datetimes is the same as comparing minutes). -/

namespace AICal

/-- ASCII approximation of Python's whitespace class `\s`, which is also
the default character set stripped by `str.strip()`. -/
def isWS (c : Char) : Bool :=
  c = ' ' || c = '\t' || c = '\n' || c = '\r' || c = '\x0b' || c = '\x0c'

/-- ASCII digit, for the `\d` class. -/
def isDigitCh (c : Char) : Bool := '0' ≤ c && c ≤ '9'

/-- The `[a-zA-Z]` class of `validate_task_input`. -/
def isAsciiAlpha (c : Char) : Bool :=
  ('a' ≤ c && c ≤ 'z') || ('A' ≤ c && c ≤ 'Z')

/-- ASCII lower-casing, for `re.IGNORECASE` and `.lower()`. -/
def lowerCh (c : Char) : Char :=
  if 'A' ≤ c && c ≤ 'Z' then Char.ofNat (c.toNat + 32) else c

/-- Python `str.strip()`: remove leading and trailing whitespace. -/
def pyStrip (s : List Char) : List Char :=
  ((s.dropWhile isWS).reverse.dropWhile isWS).reverse

/-- Matches `\s+` at the head of `s`.  In every use inside the three
templates the item that follows cannot match a whitespace character, so
the greedy run is forced to consume the whole maximal run; returns the
rest of the string after it. -/
def wsRun1 (s : List Char) : Option (List Char) :=
  match s with
  | [] => none
  | c :: rest => if isWS c then some (rest.dropWhile isWS) else none

/-- Case-insensitive literal match (`re.IGNORECASE`): strips the pattern
`pat` (given in lowercase) from the head of `s`. -/
def stripCI (pat s : List Char) : Option (List Char) :=
  match pat, s with
  | [], rest => some rest
  | _ :: _, [] => none
  | p :: ps, c :: cs => if lowerCh c = p then stripCI ps cs else none

/-- Numeric value of an ASCII digit. -/
def digitVal (c : Char) : Nat := c.toNat - '0'.toNat

/-- Matches `(\d+)` at the head of `s` (forced maximal: in both templates
the item after the digits cannot match a digit), returning the Python
`int(...)` value of the digits and the rest. -/
def digits1 (s : List Char) : Option (Nat × List Char) :=
  match s.takeWhile isDigitCh with
  | [] => none
  | ds => some (ds.foldl (fun a c => 10 * a + digitVal c) 0, s.dropWhile isDigitCh)

/-- The branches of the alternation `(hours?|hrs?|minutes?|mins?)` in the
order the backtracking engine tries them (each optional `s?` greedy). -/
def unitLits : List (List Char) :=
  [['h', 'o', 'u', 'r', 's'], ['h', 'o', 'u', 'r'], ['h', 'r', 's'], ['h', 'r'],
   ['m', 'i', 'n', 'u', 't', 'e', 's'], ['m', 'i', 'n', 'u', 't', 'e'],
   ['m', 'i', 'n', 's'], ['m', 'i', 'n']]

/-- Ordered alternation over the duration units, running the continuation
`k` (the rest of the template) after the matched literal; the first branch
whose literal matches and whose continuation succeeds wins, exactly as the
backtracking engine behaves.  Returns the matched unit (which equals the
Python `.lower()` of the matched text, since matching is
case-insensitive) together with the continuation's result. -/
def unitAlt (k : List Char → Option α) (s : List Char) : Option (List Char × α) :=
  unitLits.findSome? (fun u => (stripCI u s).bind (fun r => (k r).map (fun a => (u, a))))

/-- Ordered alternation over the time-marker tokens (`at|by|@` or
`at|by|@|on`).  The tokens start with pairwise distinct letters (also
after case folding), so at most one branch can match at a position and
taking the first literal match loses no backtracking. -/
def tokAlt (toks : List (List Char)) (s : List Char) : Option (List Char) :=
  toks.findSome? (fun t => stripCI t s)

/-- One attempt of `(.+?)\s+<post>` at a fixed start position: grows the
lazy group one character at a time (`.` does not match a newline) and
runs `post` on what follows the forced whitespace run.  `acc` holds the
group matched so far; shorter groups are tried first, as the lazy
quantifier requires. -/
def tryGo (post : List Char → Option β) (acc : List Char) :
    List Char → Option (List Char × β)
  | [] => none
  | c :: rest =>
    if c = '\n' then none
    else
      match (wsRun1 rest).bind post with
      | some b => some (acc ++ [c], b)
      | none => tryGo post (acc ++ [c]) rest

/-- `re.search` for a pattern of overall shape `(.+?)\s+<post>` (the shape
of all three templates): attempts every start position left to right and
returns the first, i.e. leftmost, match. -/
def searchGen (post : List Char → Option β) : List Char → Option (List Char × β)
  | [] => none
  | c :: rest =>
    match tryGo post [] (c :: rest) with
    | some r => some r
    | none => searchGen post rest

/-- After the unit in template 2: `\s+(.+)`.  The greedy `.+` runs to the
next newline or the end of the string and must be non-empty. -/
def post2After (s : List Char) : Option (List Char) := do
  let s1 ← wsRun1 s
  let g4 := s1.takeWhile (fun c => c ≠ '\n')
  if g4.isEmpty then none else pure g4

/-- Tail of template 1 after the lazy time-expression group:
`for\s+(\d+)\s*(hours?|hrs?|minutes?|mins?)` (the `\s+` in front of `for`
is consumed by the enclosing `tryGo`); the template ends right after the
unit. -/
def post1Inner (s : List Char) : Option (Nat × List Char) := do
  let s1 ← stripCI ['f', 'o', 'r'] s
  let s2 ← wsRun1 s1
  let (n, s3) ← digits1 s2
  let (u, _) ← unitAlt (fun r => some ()) (s3.dropWhile isWS)
  pure (n, u)

/-- Tail of template 1 after the lazy title group:
`(?:at|by|@)\s+(.+?)\s+for\s+(\d+)\s*(unit)`. -/
def post1 (s : List Char) : Option (List Char × Nat × List Char) := do
  let s1 ← tokAlt [['a', 't'], ['b', 'y'], ['@']] s
  let s2 ← wsRun1 s1
  let r ← tryGo post1Inner [] s2
  pure (r.1, r.2.1, r.2.2)

/-- Tail of template 2 after the lazy title group:
`for\s+(\d+)\s*(unit)\s+(.+)`. -/
def post2 (s : List Char) : Option (Nat × List Char × List Char) := do
  let s1 ← stripCI ['f', 'o', 'r'] s
  let s2 ← wsRun1 s1
  let (n, s3) ← digits1 s2
  let (u, g4) ← unitAlt post2After (s3.dropWhile isWS)
  pure (n, u, g4)

/-- Tail of template 3 after the lazy title group: `(?:at|by|@|on)\s+(.+)`. -/
def post3 (s : List Char) : Option (List Char) := do
  let s1 ← tokAlt [['a', 't'], ['b', 'y'], ['@'], ['o', 'n']] s
  let s2 ← wsRun1 s1
  let g2 := s2.takeWhile (fun c => c ≠ '\n')
  if g2.isEmpty then none else pure g2

/-- Match data of template 1: title group, time expression, duration
value and unit. -/
structure M1 where
  g1 : List Char
  timeExpr : List Char
  n : Nat
  unit : List Char
deriving Repr, DecidableEq

/-- Match data of template 2. -/
structure M2 where
  g1 : List Char
  n : Nat
  unit : List Char
  timeExpr : List Char
deriving Repr, DecidableEq

/-- Match data of template 3. -/
structure M3 where
  g1 : List Char
  timeExpr : List Char
deriving Repr, DecidableEq

/-- `re.search` of template 1 of `extract_task_details`:
`(.+?)\s+(?:at|by|@)\s+(.+?)\s+for\s+(\d+)\s*(hours?|hrs?|minutes?|mins?)`
with `re.IGNORECASE`. -/
def searchP1 (s : List Char) : Option M1 :=
  (searchGen post1 s).map (fun r => ⟨r.1, r.2.1, r.2.2.1, r.2.2.2⟩)

/-- `re.search` of template 2 of `extract_task_details`:
`(.+?)\s+for\s+(\d+)\s*(hours?|hrs?|minutes?|mins?)\s+(.+)` with
`re.IGNORECASE`. -/
def searchP2 (s : List Char) : Option M2 :=
  (searchGen post2 s).map (fun r => ⟨r.1, r.2.1, r.2.2.1, r.2.2.2⟩)

/-- `re.search` of template 3 of `extract_task_details`:
`(.+?)\s+(?:at|by|@|on)\s+(.+)` with `re.IGNORECASE`. -/
def searchP3 (s : List Char) : Option M3 :=
  (searchGen post3 s).map (fun r => ⟨r.1, r.2⟩)

/-- The check `'hour' in unit or 'hr' in unit` on the lower-cased matched
unit. -/
def containsSub (pat s : List Char) : Bool :=
  s.tails.any (fun t => pat.isPrefixOf t)

/-- Hour granularity is selected when the unit contains `hour` or `hr`. -/
def hourUnit (u : List Char) : Bool :=
  containsSub ['h', 'o', 'u', 'r'] u || containsSub ['h', 'r'] u

/-- `timedelta(hours=n)` or `timedelta(minutes=n)`, in minutes. -/
def durOf (n : Nat) (u : List Char) : Nat :=
  if hourUnit u then 60 * n else n

/-- `planner.extract_task_details`.  `dateparser.parse` is abstracted as
the oracle `dp` (its `PREFER_DATES_FROM` setting does not affect any
claim); the returned duration is in minutes. -/
def extract_task_details (dp : List Char → Option α) (task : List Char) :
    Option (List Char) × Option α × Option Nat :=
  let t := pyStrip task
  match searchP1 t with
  | some m => (some (pyStrip m.g1), dp (pyStrip m.timeExpr), some (durOf m.n m.unit))
  | none =>
    match searchP2 t with
    | some m => (some (pyStrip m.g1), dp (pyStrip m.timeExpr), some (durOf m.n m.unit))
    | none =>
      match searchP3 t with
      | some m => (some (pyStrip m.g1), dp (pyStrip m.timeExpr), some 60)
      | none => if t.isEmpty then (none, none, none) else (some t, none, some 60)

/-! ### `planner.find_free_slot`

Times are integer minutes; day `d` has working window
`d*1440 + 480 .. d*1440 + 1200` (08:00-20:00).  The calendar service call
is modelled by its response: the list of events overlapping the window,
each with the `dateparser.parse` results of its start/end strings (which
may be `None`).  The `except` fallback of the source fires only when the
service call itself raises and is outside this pure model. -/

/-- One calendar event as consumed by the cursor scan. -/
structure GEvent where
  estart : Option Int
  eend : Option Int
deriving Repr, DecidableEq

/-- 08:00 on day `date`, in minutes. -/
def windowStart (date : Int) : Int := date * 1440 + 8 * 60

/-- 20:00 on day `date`, in minutes. -/
def windowEnd (date : Int) : Int := date * 1440 + 20 * 60

/-- `current_time = max(current_time, event_end)` when the event end
parsed, else leave the cursor. -/
def advanceCursor (cur : Int) (ev : GEvent) : Int :=
  match ev.eend with
  | some ee => max cur ee
  | none => cur

/-- The cursor loop of `find_free_slot`: for each event, if its start
parsed and the gap from the cursor is at least the duration, return the
cursor; otherwise advance the cursor past the event; after the loop check
the gap to the window end.  (`total_seconds() >= duration_mins * 60` on
whole-minute times is `es - cur ≥ dur`.) -/
def findSlotGo (wend dur : Int) : List GEvent → Int → Option Int
  | [], cur => if wend - cur ≥ dur then some cur else none
  | ev :: rest, cur =>
    match ev.estart with
    | some es =>
      if es - cur ≥ dur then some cur
      else findSlotGo wend dur rest (advanceCursor cur ev)
    | none => findSlotGo wend dur rest (advanceCursor cur ev)

/-- `planner.find_free_slot` (happy path, service response given). -/
def find_free_slot (date : Int) (duration_mins : Int) (events : List GEvent) :
    Option Int :=
  findSlotGo (windowEnd date) duration_mins events (windowStart date)

/-! ### `planner.validate_task_input` -/

/-- `planner.validate_task_input`: empty check, 200-character length
check (Python `len` counts code points), then `re.search(r'[a-zA-Z]', s)`. -/
def validate_task_input (task : List Char) : Bool × List Char :=
  if task.isEmpty || (pyStrip task).isEmpty then
    (false, "Please enter a task description".toList)
  else if task.length > 200 then
    (false, "Task description is too long (max 200 characters)".toList)
  else if !(task.any isAsciiAlpha) then
    (false, "Task should contain at least some text".toList)
  else (true, [])

/-! ### `routes.add_to_conversation` -/

/-- `routes.add_to_conversation`: append the new exchange to the session
history, then `history[-10:]` when the length exceeds 10.  The turn
payload (user/assistant/timestamp dict) is abstract. -/
def add_to_conversation (history : List α) (turn : α) : List α :=
  let h := history ++ [turn]
  if h.length > 10 then h.drop (h.length - 10) else h

/-! ### `deepseek_parser.call_deepseek`

The network and the LLM are oracles.  The model input is the outcome of
the request: a network-level failure (`requests.exceptions.RequestException`),
or a reply whose envelope extraction
(`result["choices"][0]["message"]["content"]`) failed with some exception,
or a reply whose fenced-stripped text failed `json.loads`, or the decoded
JSON value.  JSON numbers are modelled as integers; `strptime` plus the
`dateparser` retry on the start-time string are the oracle `parseTime`. -/

/-- A decoded JSON value. -/
inductive JVal where
  | jnull : JVal
  | jbool : Bool → JVal
  | jnum : Int → JVal
  | jstr : List Char → JVal
  | jarr : List JVal → JVal
  | jobj : List (List Char × JVal) → JVal

/-- Outcome of the oracle request, as seen by the body of `call_deepseek`
after `requests.post`. -/
inductive OracleReply where
  | netError : List Char → OracleReply
  | badEnvelope : List Char → OracleReply
  | badJson : OracleReply
  | good : JVal → OracleReply

/-- Python `dict.get` on a decoded JSON object (later duplicate keys win,
as in `json.loads`). -/
def jget (fs : List (List Char × JVal)) (key : List Char) : Option JVal :=
  fs.reverse.findSome? (fun kv => if kv.1 = key then some kv.2 else none)

/-- The check `data.get("status") == "clarification"` (true exactly when
the value is that string). -/
def isClarStatus : Option JVal → Bool
  | some (.jstr s) => s = "clarification".toList
  | _ => false

/-- Python truthiness of a decoded JSON value (`if start_time_str:`). -/
def jTruthy : JVal → Bool
  | .jnull => false
  | .jbool b => b
  | .jnum n => n ≠ 0
  | .jstr s => !s.isEmpty
  | .jarr xs => !xs.isEmpty
  | .jobj fs => !fs.isEmpty

/-- Result quadruple of `call_deepseek`:
`(title, start_time, duration, clarification_question)`.  The fourth
component is the raw value handed back (the clarification branch returns
`data.get("question")` verbatim; error branches return message strings). -/
abbrev DSQuad := Option (List Char) × Option Int × Option Int × Option JVal

/-- The completion branch of `call_deepseek` (status not `clarification`):
title extraction and check, start-time parse, duration construction.
A non-string `title` raises at `.strip()`, a truthy non-string
`start_time` raises at `strptime`, and a `duration_minutes` that is not a
number (JSON `true`/`false` count, as Python `bool` is an `int`) raises
at `timedelta`; each lands in the final generic `except` handler. -/
def processComplete (parseTime : List Char → Option Int)
    (fs : List (List Char × JVal)) : DSQuad :=
  match (jget fs "title".toList).getD (.jstr []) with
  | .jstr t0 =>
    let title := pyStrip t0
    if title.isEmpty then
      (none, none, none, some (.jstr "Could not extract task title. Please provide more details.".toList))
    else
      let stv := (jget fs "start_time".toList).getD (.jstr [])
      if !jTruthy stv then
        (none, none, none, some (.jstr "Could not understand the time. Please specify when you'd like to schedule this task.".toList))
      else
        match stv with
        | .jstr sts =>
          match parseTime sts with
          | none =>
            (none, none, none, some (.jstr "Could not understand the time. Please specify when you'd like to schedule this task.".toList))
          | some st =>
            match (jget fs "duration_minutes".toList).getD (.jnum 60) with
            | .jnum n => (some title, some st, some n, none)
            | .jbool b => (some title, some st, some (if b then 1 else 0), none)
            | _ => (none, none, none, some (.jstr "Error processing request: bad duration".toList))
        | _ => (none, none, none, some (.jstr "Error processing request: bad start_time".toList))
  | _ => (none, none, none, some (.jstr "Error processing request: bad title".toList))

/-- `deepseek_parser.call_deepseek`: the missing-key guard, the
`except`-clause messages, the clarification branch (which returns
`data.get("question")` unchecked) and the completion branch.  A decoded
JSON value that is not an object raises `AttributeError` at
`data.get(...)` and lands in the generic `except` handler. -/
def call_deepseek (hasKey : Bool) (reply : OracleReply)
    (parseTime : List Char → Option Int) : DSQuad :=
  if !hasKey then (none, none, none, some (.jstr "API key not configured".toList))
  else
    match reply with
    | .netError e =>
      (none, none, none, some (.jstr ("Network error: ".toList ++ e)))
    | .badEnvelope e =>
      (none, none, none, some (.jstr ("Error processing request: ".toList ++ e)))
    | .badJson =>
      (none, none, none, some (.jstr "Could not parse response. Please try rephrasing your request.".toList))
    | .good (.jobj fs) =>
      if isClarStatus (jget fs "status".toList) then
        (none, none, none, jget fs "question".toList)
      else processComplete parseTime fs
    | .good _ =>
      (none, none, none, some (.jstr "Error processing request: not an object".toList))

/-! ### `routes.index`, POST branch

The handler is modelled as a pure function of the oracles it consults:
the two parsers' results, `datetime.now()` (minutes) and its date (day
index), the calendar responses for the two free-slot queries, and the
conflict and duplicate query responses (as functions of the query
parameters the handler computes).  Its output records the calendar
insertions performed (`create_calendar_event` calls) and the user-facing
message. -/

/-- One `create_calendar_event` call. -/
structure CommitReq where
  title : List Char
  start : Int
  stop : Int
deriving Repr, DecidableEq

/-- What a POST request produces: the insertions made and the message
rendered. -/
structure HandlerResult where
  commits : List CommitReq
  message : Option (List Char)
deriving Repr, DecidableEq

/-- Truthiness of an optional string (`None` and `""` are falsy). -/
def optStrTruthy : Option (List Char) → Bool
  | some s => !s.isEmpty
  | none => false

/-- Truthiness of an optional `timedelta` in minutes (`None` and the zero
timedelta are falsy). -/
def optDurTruthy : Option Int → Bool
  | some d => d != 0
  | none => false

/-- Truthiness of an optional `datetime` (every `datetime` is truthy). -/
def optTimeTruthy : Option Int → Bool
  | some _ => true
  | none => false

/-- Lines 59-64: `parse_natural_language` first; when
`not all([title, start_time, duration])` (Python truthiness), all four
variables are overwritten by the `call_deepseek` result. -/
def effectiveQuad (lp : Option (List Char) × Option Int × Option Int)
    (ai : Option (List Char) × Option Int × Option Int × Option (List Char)) :
    Option (List Char) × Option Int × Option Int × Option (List Char) :=
  if optStrTruthy lp.1 && optTimeTruthy lp.2.1 && optDurTruthy lp.2.2 then
    (lp.1, lp.2.1, lp.2.2, none)
  else ai

/-- Lines 83-91: missing start time resolved by `find_free_slot` on
today, then on tomorrow. -/
def resolvedStart (today dm : Int) (todayEvs tmrwEvs : List GEvent)
    (st0 : Option Int) : Option Int :=
  match st0 with
  | some st => some st
  | none =>
    match find_free_slot today dm todayEvs with
    | some st => some st
    | none => find_free_slot (today + 1) dm tmrwEvs

/-- `", ".join(conflict_titles)`. -/
def joinComma : List (List Char) → List Char
  | [] => []
  | [t] => t
  | t :: rest => t ++ ", ".toList ++ joinComma rest

/-- The POST branch of `routes.index` (lines 50-143).  `conflictsAt` is
the calendar's response to the overlap query for `[start, end]`;
`dupsFor` is its response to the 30-day `q=title` query; both are lists
of event summaries.  The success message's date formatting is abbreviated
to its fixed prefix plus the title. -/
def index_post (now today : Int)
    (lp : Option (List Char) × Option Int × Option Int)
    (ai : Option (List Char) × Option Int × Option Int × Option (List Char))
    (todayEvs tmrwEvs : List GEvent)
    (conflictsAt : Int → Int → List (List Char))
    (dupsFor : List Char → List (List Char))
    (rawTask : List Char) : HandlerResult :=
  let task := pyStrip rawTask
  if task.isEmpty then
    ⟨[], some "⚠️ Please enter a task description.".toList⟩
  else
    let q := effectiveQuad lp ai
    if optStrTruthy q.2.2.2 then
      ⟨[], some ("🤔 ".toList ++ q.2.2.2.getD [])⟩
    else if !(optStrTruthy q.1 && optDurTruthy q.2.2.1) then
      ⟨[], some "⚠️ I couldn't understand your task. Please try: 'KPMG meeting tomorrow 5pm for 3 hours'".toList⟩
    else
      let dur := q.2.2.1.getD 0
      match resolvedStart today dur todayEvs tmrwEvs q.2.1 with
      | none => ⟨[], some "⚠️ No available time slots found. Please specify a time.".toList⟩
      | some st =>
        if st < now then
          ⟨[], some "⚠️ Cannot schedule tasks in the past. Please choose a future time.".toList⟩
        else
          let stop := st + dur
          let conflicts := conflictsAt st stop
          if !conflicts.isEmpty then
            ⟨[], some ("⚠️ Time conflict with: ".toList ++ joinComma conflicts
              ++ ". Please choose a different time.".toList)⟩
          else
            let title := q.1.getD []
            if !(dupsFor title).isEmpty then
              ⟨[], some ("🟡 You already have a similar event: '".toList ++ title
                ++ "'. Do you want to create another one?".toList)⟩
            else
              ⟨[⟨title, st, stop⟩], some ("✅ Scheduled '".toList ++ title ++ "'".toList)⟩

/-! ## Theorems -/

/-- The cursor never moves backwards. -/
theorem le_advanceCursor (cur : Int) (ev : GEvent) : cur ≤ advanceCursor cur ev := by
  unfold advanceCursor
  cases ev.eend with
  | none => exact le_refl cur
  | some ee => exact le_max_left cur ee

/-- Unfolding lemma: the empty-list step of the cursor loop. -/
theorem findSlotGo_nil (wend dur cur : Int) :
    findSlotGo wend dur [] cur = if wend - cur ≥ dur then some cur else none := rfl

/-- Unfolding lemma: the step of the cursor loop on an event with a
parsed start. -/
theorem findSlotGo_cons_some (wend dur es : Int) (eeO : Option Int)
    (rest : List GEvent) (cur : Int) :
    findSlotGo wend dur (⟨some es, eeO⟩ :: rest) cur =
      if es - cur ≥ dur then some cur
      else findSlotGo wend dur rest (advanceCursor cur ⟨some es, eeO⟩) := rfl

/-- Unfolding lemma: the step of the cursor loop on an event whose start
did not parse. -/
theorem findSlotGo_cons_none (wend dur : Int) (eeO : Option Int)
    (rest : List GEvent) (cur : Int) :
    findSlotGo wend dur (⟨none, eeO⟩ :: rest) cur =
      findSlotGo wend dur rest (advanceCursor cur ⟨none, eeO⟩) := rfl

/-- Any slot returned by the cursor loop lies at or after the initial
cursor, and ends (slot + duration) at or before the window end, provided
every parsed busy start is at most the window end. -/
theorem findSlotGo_bounds (wend dur : Int) :
    ∀ (evs : List GEvent) (cur : Int),
      (∀ ev ∈ evs, ∀ es, ev.estart = some es → es ≤ wend) →
      ∀ t, findSlotGo wend dur evs cur = some t → cur ≤ t ∧ t + dur ≤ wend := by
  intro evs
  induction evs with
  | nil =>
    intro cur _ t ht
    rw [findSlotGo_nil] at ht
    by_cases hg : wend - cur ≥ dur
    · rw [if_pos hg] at ht
      cases ht
      omega
    · rw [if_neg hg] at ht
      cases ht
  | cons ev rest ih =>
    intro cur hb t ht
    obtain ⟨esO, eeO⟩ := ev
    have hbrest : ∀ e ∈ rest, ∀ es, e.estart = some es → es ≤ wend := by
      intro e he es hes
      exact hb e (List.mem_cons_of_mem _ he) es hes
    cases esO with
    | some es =>
      rw [findSlotGo_cons_some] at ht
      by_cases hg : es - cur ≥ dur
      · rw [if_pos hg] at ht
        cases ht
        have hesw : es ≤ wend := hb ⟨some es, eeO⟩ (List.mem_cons_self _ _) es rfl
        omega
      · rw [if_neg hg] at ht
        have := ih (advanceCursor cur ⟨some es, eeO⟩) hbrest t ht
        have hadv := le_advanceCursor cur ⟨some es, eeO⟩
        omega
    | none =>
      rw [findSlotGo_cons_none] at ht
      have := ih (advanceCursor cur ⟨none, eeO⟩) hbrest t ht
      have hadv := le_advanceCursor cur ⟨none, eeO⟩
      omega

/-- C5: for every date, duration and busy list whose parsed starts lie
inside the queried window (the service is asked only for events
overlapping 08:00-20:00, so their starts are at most the window end),
any slot found starts no earlier than 08:00 and ends, after adding the
requested duration, no later than 20:00. -/
theorem claim_C5 (d dur : Int) (evs : List GEvent)
    (hwin : ∀ ev ∈ evs, ∀ es, ev.estart = some es → es ≤ windowEnd d) :
    ∀ t, find_free_slot d dur evs = some t →
      windowStart d ≤ t ∧ t + dur ≤ windowEnd d := by
  intro t ht
  exact findSlotGo_bounds (windowEnd d) dur evs (windowStart d) hwin t ht

/-- Witness for C5: day 0 with one busy event 09:00-10:00 and a 60-minute
request; the returned slot 08:00 satisfies both bounds. -/
theorem claim_C5_witness :
    windowStart 0 ≤ 480 ∧ 480 + 60 ≤ windowEnd 0 := by
  refine claim_C5 0 60 [⟨some 540, some 600⟩] ?_ 480 ?_
  · intro ev hev es hes
    rw [List.mem_singleton] at hev
    subst hev
    simp only [windowEnd]
    simp only [GEvent.estart] at hes
    cases hes
    omega
  · rfl

/-- C8: the slot finder is a pure function of the date, the duration and
the busy list, so two calls on unchanged inputs return the same result. -/
theorem claim_C8 (d dur : Int) (evs : List GEvent) :
    find_free_slot d dur evs = find_free_slot d dur evs := rfl

/-- C10: on an empty busy list, the whole 720-minute window is the only
gap, so the slot is 08:00 exactly when the duration is at most 720
minutes, and no slot exists otherwise. -/
theorem claim_C10 (d dur : Int) :
    find_free_slot d dur [] = if dur ≤ 720 then some (windowStart d) else none := by
  unfold find_free_slot findSlotGo windowStart windowEnd
  split_ifs with h1 h2 <;> first | rfl | omega

/-- C1 as stated is false: on day 0 with busy intervals 09:00-10:00 and
10:30-11:00 (minutes 540-600 and 630-660) and a 45-minute duration, the
code returns 08:00 (minute 480), not 11:00 (minute 660): the very first
gap, 08:00-09:00, is 60 minutes and already fits 45 minutes, and the scan
is first-fit. -/
theorem claim_C1_counterexample :
    find_free_slot 0 45 [⟨some 540, some 600⟩, ⟨some 630, some 660⟩] = some 480 ∧
    (480 : Int) ≠ 660 := by
  constructor
  · rfl
  · decide

/-- C1 amended: with busy intervals 09:00-10:00 and 10:30-11:00 of the
target date and a 45-minute duration, the returned slot start is 08:00,
the window start (first-fit into the 60-minute gap before 09:00). -/
theorem claim_C1_amended (d : Int) :
    find_free_slot d 45
      [⟨some (d * 1440 + 540), some (d * 1440 + 600)⟩,
       ⟨some (d * 1440 + 630), some (d * 1440 + 660)⟩] = some (windowStart d) := by
  unfold find_free_slot
  rw [findSlotGo_cons_some, if_pos (by unfold windowStart; omega)]

/-- C4: after every append the history holds at most 10 entries, and when
the cap is exceeded the kept entries are a suffix (the most recent 10) of
the appended history, i.e. the oldest entries are the ones evicted. -/
theorem claim_C4 {α : Type} (h : List α) (t : α) :
    (add_to_conversation h t).length ≤ 10 ∧
    (10 < (h ++ [t]).length →
      (add_to_conversation h t).length = 10 ∧
      ∃ dropped, dropped ++ add_to_conversation h t = h ++ [t]) := by
  unfold add_to_conversation
  by_cases hl : (h ++ [t]).length > 10
  · rw [if_pos hl]
    refine ⟨?_, fun _ => ⟨?_, ?_⟩⟩
    · rw [List.length_drop]
      omega
    · rw [List.length_drop]
      omega
    · exact ⟨(h ++ [t]).take ((h ++ [t]).length - 10), List.take_append_drop _ _⟩
  · rw [if_neg hl]
    exact ⟨by omega, fun hc => absurd hc hl⟩

/-- Witness for C4: appending to a full 10-entry history keeps exactly
the 10 most recent entries. -/
theorem claim_C4_witness :
    (add_to_conversation (List.range 10) 99).length ≤ 10 ∧
    (add_to_conversation (List.range 10) 99).length = 10 ∧
    ∃ dropped, dropped ++ add_to_conversation (List.range 10) 99 = List.range 10 ++ [99] :=
  ⟨(claim_C4 (List.range 10) 99).1, (claim_C4 (List.range 10) 99).2 (by decide)⟩

/-- C9: inputs that are non-empty after stripping and within the length
bound but contain no ASCII letter are rejected with the fixed message;
`validate_task_input` succeeds with an empty message exactly on the
remaining inputs (some text, at most 200 characters, at least one ASCII
letter); stripped-empty or over-long input is always rejected. -/
theorem claim_C9 (s : List Char) :
    ((pyStrip s ≠ [] ∧ s.length ≤ 200 ∧ s.any isAsciiAlpha = false) →
      validate_task_input s =
        (false, "Task should contain at least some text".toList)) ∧
    (validate_task_input s = (true, []) ↔
      (pyStrip s ≠ [] ∧ s.length ≤ 200 ∧ s.any isAsciiAlpha = true)) ∧
    ((pyStrip s = [] ∨ 200 < s.length) → (validate_task_input s).1 = false) := by
  have hempty : (s.isEmpty || (pyStrip s).isEmpty) = true ↔ pyStrip s = [] := by
    constructor
    · intro hor
      rcases Bool.or_eq_true_iff.mp hor with h1 | h1
      · rw [List.isEmpty_iff] at h1
        rw [h1]
        rfl
      · exact List.isEmpty_iff.mp h1
    · intro hnil
      rw [Bool.or_eq_true_iff]
      exact Or.inr (List.isEmpty_iff.mpr hnil)
  unfold validate_task_input
  by_cases h1 : pyStrip s = []
  · rw [if_pos (hempty.mpr h1)]
    exact ⟨fun hc => absurd h1 hc.1,
      ⟨fun hc => by simp at hc, fun hc => absurd h1 hc.1⟩,
      fun _ => rfl⟩
  · rw [if_neg (fun hc => h1 (hempty.mp hc))]
    by_cases h2 : s.length > 200
    · rw [if_pos h2]
      exact ⟨fun hc => absurd hc.2.1 (by omega),
        ⟨fun hc => by simp at hc, fun hc => absurd hc.2.1 (by omega)⟩,
        fun _ => rfl⟩
    · rw [if_neg h2]
      by_cases h3 : s.any isAsciiAlpha = true
      · rw [if_neg (by rw [h3]; simp)]
        exact ⟨fun hc => Bool.noConfusion (h3.symm.trans hc.2.2),
          ⟨fun _ => ⟨h1, by omega, h3⟩, fun _ => rfl⟩,
          fun hc => by rcases hc with hc | hc
                       · exact absurd hc h1
                       · exact absurd hc (by omega)⟩
      · have h3f : s.any isAsciiAlpha = false := by
          revert h3
          cases s.any isAsciiAlpha <;> simp
        rw [if_pos (by rw [h3f]; rfl)]
        exact ⟨fun _ => rfl,
          ⟨fun hc => by simp at hc, fun hc => Bool.noConfusion (h3f.symm.trans hc.2.2)⟩,
          fun _ => rfl⟩

/-- Witness for C9: the all-digit input `1234` is rejected with the
no-text message. -/
theorem claim_C9_witness :
    validate_task_input "1234".toList =
      (false, "Task should contain at least some text".toList) :=
  (claim_C9 "1234".toList).1 ⟨by decide, by decide, by decide⟩

/-! ### Facts about the template matcher -/

/-- Unfolding lemma for `tryGo` on the empty string. -/
theorem tryGo_nil {β : Type} (post : List Char → Option β) (acc : List Char) :
    tryGo post acc [] = none := rfl

/-- Unfolding lemma for `tryGo` on a cons. -/
theorem tryGo_cons {β : Type} (post : List Char → Option β) (acc : List Char)
    (c : Char) (rest : List Char) :
    tryGo post acc (c :: rest) =
      if c = '\n' then none
      else
        match (wsRun1 rest).bind post with
        | some b => some (acc ++ [c], b)
        | none => tryGo post (acc ++ [c]) rest := rfl

/-- Unfolding lemma for `searchGen` on the empty string. -/
theorem searchGen_nil {β : Type} (post : List Char → Option β) :
    searchGen post [] = none := rfl

/-- Unfolding lemma for `searchGen` on a cons. -/
theorem searchGen_cons {β : Type} (post : List Char → Option β) (c : Char)
    (rest : List Char) :
    searchGen post (c :: rest) =
      match tryGo post [] (c :: rest) with
      | some r => some r
      | none => searchGen post rest := rfl

/-- A successful attempt decomposes the string into the non-empty,
newline-free lazy group and the remainder on which the whitespace run
plus the tail matcher fired. -/
theorem tryGo_shape {β : Type} (post : List Char → Option β) :
    ∀ (s acc : List Char) (r : List Char × β),
      tryGo post acc s = some r →
      ∃ p q, s = p ++ q ∧ p ≠ [] ∧ r.1 = acc ++ p ∧
        (wsRun1 q).bind post = some r.2 := by
  intro s
  induction s with
  | nil =>
    intro acc r h
    rw [tryGo_nil] at h
    cases h
  | cons c rest ih =>
    intro acc r h
    rw [tryGo_cons] at h
    by_cases hc : c = '\n'
    · rw [if_pos hc] at h
      cases h
    · rw [if_neg hc] at h
      cases hb : (wsRun1 rest).bind post with
      | some b =>
        rw [hb] at h
        injection h with h'
        subst h'
        exact ⟨[c], rest, rfl, by simp, rfl, hb⟩
      | none =>
        rw [hb] at h
        obtain ⟨p', q', hsplit, hne, hg1, hq⟩ := ih (acc ++ [c]) r h
        refine ⟨c :: p', q', by rw [hsplit]; rfl, by simp, ?_, hq⟩
        rw [hg1]
        simp

/-- When the head is not a newline and the whitespace-plus-tail matcher
fires on the rest, the attempt succeeds at once with the one-character
lazy group. -/
theorem tryGo_lift {β : Type} (post : List Char → Option β) (acc : List Char)
    (c : Char) (rest : List Char) (b : β) (hc : c ≠ '\n')
    (hb : (wsRun1 rest).bind post = some b) :
    tryGo post acc (c :: rest) = some (acc ++ [c], b) := by
  rw [tryGo_cons, if_neg hc, hb]

/-- A character that is not whitespace is not a newline. -/
theorem notWS_ne_newline (c : Char) (h : isWS c = false) : c ≠ '\n' := by
  intro hc
  subst hc
  simp [isWS] at h

/-- `wsRun1` on a whitespace-headed string consumes the maximal run. -/
theorem wsRun1_cons_ws (c : Char) (l : List Char) (h : isWS c = true) :
    wsRun1 (c :: l) = some (l.dropWhile isWS) := by
  simp [wsRun1, h]

/-- Characterization of a successful `wsRun1`. -/
theorem wsRun1_eq_some {s w : List Char} (h : wsRun1 s = some w) :
    ∃ c rest, s = c :: rest ∧ isWS c = true ∧ w = rest.dropWhile isWS := by
  cases s with
  | nil => cases h
  | cons c rest =>
    by_cases hc : isWS c = true
    · rw [wsRun1_cons_ws c rest hc] at h
      injection h with h'
      exact ⟨c, rest, rfl, hc, h'.symm⟩
    · rw [wsRun1, if_neg hc] at h
      cases h

/-- The invariant carried down the left-to-right scan: whenever the
remaining string starts with whitespace, the tail matcher cannot fire
right after its leading whitespace run (otherwise the scan would already
have matched at an earlier, not-yet-dropped start position). -/
def KInv {β : Type} (post : List Char → Option β) (s : List Char) : Prop :=
  ∀ c rest, s = c :: rest → isWS c = true → post (s.dropWhile isWS) = none

/-- Core lemma: under the scan invariant, the lazy group of the leftmost
match contains a non-whitespace character. -/
theorem searchGen_g1_nonws {β : Type} (post : List Char → Option β) :
    ∀ (s : List Char) (r : List Char × β), KInv post s →
      searchGen post s = some r → ∃ x ∈ r.1, isWS x = false := by
  intro s
  induction s with
  | nil =>
    intro r _ h
    rw [searchGen_nil] at h
    cases h
  | cons c rest ih =>
    intro r hK h
    rw [searchGen_cons] at h
    cases htry : tryGo post [] (c :: rest) with
    | some r0 =>
      rw [htry] at h
      injection h with h'
      subst h'
      obtain ⟨p, q, hsplit, hpne, hg1, hq⟩ := tryGo_shape post (c :: rest) [] r0 htry
      rw [List.nil_append] at hg1
      by_cases hws : isWS c = true
      · by_contra hall
        push_neg at hall
        have hallws : ∀ x ∈ p, isWS x = true := by
          intro x hx
          have hne := hall x (by rw [hg1]; exact hx)
          revert hne
          cases isWS x <;> simp
        obtain ⟨w, hw1, hw2⟩ := Option.bind_eq_some.mp hq
        obtain ⟨c', rest', hq', hc', hw'⟩ := wsRun1_eq_some hw1
        have hKc := hK c rest rfl hws
        have hdrop : (c :: rest).dropWhile isWS = w := by
          rw [hsplit, List.dropWhile_append_of_pos hallws, hq',
            List.dropWhile_cons_of_pos hc', hw']
        rw [hdrop, hw2] at hKc
        cases hKc
      · cases p with
        | nil => exact absurd rfl hpne
        | cons a p' =>
          have hca : c = a := by
            have := congrArg (fun l => l.head?) hsplit
            simpa using this
          refine ⟨c, ?_, by revert hws; cases isWS c <;> simp⟩
          rw [hg1, hca]
          exact List.mem_cons_self a p'
    | none =>
      rw [htry] at h
      apply ih r ?_ h
      intro c' rest' hr hws'
      by_cases hcw : isWS c = true
      · have hKc := hK c rest rfl hcw
        rw [List.dropWhile_cons_of_pos hcw] at hKc
        exact hKc
      · by_contra hpost
        obtain ⟨b, hb⟩ := Option.ne_none_iff_exists'.mp hpost
        have hbind : (wsRun1 rest).bind post = some b := by
          rw [hr, wsRun1_cons_ws c' rest' hws']
          rw [hr, List.dropWhile_cons_of_pos hws'] at hb
          exact hb
        have hlift := tryGo_lift post [] c rest b
          (notWS_ne_newline c (by revert hcw; cases isWS c <;> simp)) hbind
        rw [htry] at hlift
        cases hlift

/-- The head of a `dropWhile isWS` result is not whitespace. -/
theorem dropWhile_head_not_ws :
    ∀ (l : List Char) (c : Char) (ys : List Char),
      l.dropWhile isWS = c :: ys → isWS c = false := by
  intro l
  induction l with
  | nil =>
    intro c ys h
    cases h
  | cons a l' ih =>
    intro c ys h
    by_cases ha : isWS a = true
    · rw [List.dropWhile_cons_of_pos ha] at h
      exact ih c ys h
    · have ha' : isWS a = false := by revert ha; cases isWS a <;> simp
      rw [List.dropWhile_cons_of_neg (by rw [ha']; simp)] at h
      injection h with h1 h2
      rw [← h1]
      exact ha'

/-- The head of a stripped string is not whitespace. -/
theorem pyStrip_head_not_ws (s : List Char) (c : Char) (rest : List Char)
    (h : pyStrip s = c :: rest) : isWS c = false := by
  obtain ⟨t, ht⟩ := List.dropWhile_suffix (l := (s.dropWhile isWS).reverse) isWS
  unfold pyStrip at h
  have hy : s.dropWhile isWS =
      ((s.dropWhile isWS).reverse.dropWhile isWS).reverse ++ t.reverse := by
    have hrev := congrArg List.reverse ht
    rw [List.reverse_append, List.reverse_reverse] at hrev
    exact hrev.symm
  rw [h] at hy
  exact dropWhile_head_not_ws s c (rest ++ t.reverse) (by rw [hy]; rfl)

/-- A non-whitespace member survives `dropWhile isWS`. -/
theorem mem_dropWhile_of_not (x : Char) :
    ∀ (l : List Char), x ∈ l → isWS x = false → x ∈ l.dropWhile isWS := by
  intro l
  induction l with
  | nil =>
    intro h _
    cases h
  | cons a l' ih =>
    intro hmem hx
    by_cases ha : isWS a = true
    · rw [List.dropWhile_cons_of_pos ha]
      rcases List.mem_cons.mp hmem with rfl | hm
      · rw [ha] at hx
        cases hx
      · exact ih hm hx
    · rw [List.dropWhile_cons_of_neg (by revert ha; cases isWS a <;> simp)]
      exact hmem

/-- A list containing a non-whitespace character strips to a non-empty
list. -/
theorem pyStrip_ne_nil_of_mem (l : List Char) (x : Char) (hx : x ∈ l)
    (hws : isWS x = false) : pyStrip l ≠ [] := by
  unfold pyStrip
  intro hnil
  have h1 : x ∈ l.dropWhile isWS := mem_dropWhile_of_not x l hx hws
  have h2 : x ∈ (l.dropWhile isWS).reverse := List.mem_reverse.mpr h1
  have h3 : x ∈ (l.dropWhile isWS).reverse.dropWhile isWS :=
    mem_dropWhile_of_not x _ h2 hws
  have h4 : x ∈ ((l.dropWhile isWS).reverse.dropWhile isWS).reverse :=
    List.mem_reverse.mpr h3
  rw [hnil] at h4
  cases h4

/-- On a stripped input the leftmost match's lazy title group strips to a
non-empty string: the scan invariant holds vacuously (the stripped input
does not start with whitespace), so the group contains a non-whitespace
character. -/
theorem searchGen_strip_title {β : Type} (post : List Char → Option β)
    (s : List Char) (r : List Char × β)
    (h : searchGen post (pyStrip s) = some r) : pyStrip r.1 ≠ [] := by
  have hK : KInv post (pyStrip s) := by
    intro c rest hr hws
    rw [pyStrip_head_not_ws s c rest hr] at hws
    cases hws
  obtain ⟨x, hx, hxw⟩ := searchGen_g1_nonws post (pyStrip s) r hK h
  exact pyStrip_ne_nil_of_mem r.1 x hx hxw

/-- `searchP1` on the empty string fails. -/
theorem searchP1_nil : searchP1 [] = none := rfl

/-- `searchP2` on the empty string fails. -/
theorem searchP2_nil : searchP2 [] = none := rfl

/-- `searchP3` on the empty string fails. -/
theorem searchP3_nil : searchP3 [] = none := rfl

/-- C2: when the (stripped) input is non-empty and none of the three
templates matches, the extractor returns the whole stripped string as the
title with no start time and the default 60-minute duration; a non-empty
stripped input never yields the all-`None` triple, which is produced
exactly for input that is empty after stripping. -/
theorem claim_C2 {α : Type} (dp : List Char → Option α) (s : List Char) :
    (pyStrip s ≠ [] →
      ((searchP1 (pyStrip s) = none → searchP2 (pyStrip s) = none →
          searchP3 (pyStrip s) = none →
          extract_task_details dp s = (some (pyStrip s), none, some 60)) ∧
        extract_task_details dp s ≠ (none, none, none))) ∧
    (pyStrip s = [] → extract_task_details dp s = (none, none, none)) := by
  constructor
  · intro hne
    cases h1 : searchP1 (pyStrip s) with
    | some m =>
      constructor
      · intro h1' _ _
        exact Option.noConfusion h1'
      · simp only [extract_task_details, h1]
        simp
    | none =>
      cases h2 : searchP2 (pyStrip s) with
      | some m =>
        constructor
        · intro _ h2' _
          exact Option.noConfusion h2'
        · simp only [extract_task_details, h1, h2]
          simp
      | none =>
        cases h3 : searchP3 (pyStrip s) with
        | some m =>
          constructor
          · intro _ _ h3'
            exact Option.noConfusion h3'
          · simp only [extract_task_details, h1, h2, h3]
            simp
        | none =>
          have hemp : (pyStrip s).isEmpty = false := by
            revert hne
            cases pyStrip s <;> simp
          constructor
          · intro _ _ _
            simp only [extract_task_details, h1, h2, h3, hemp]
            simp
          · simp only [extract_task_details, h1, h2, h3, hemp]
            simp
  · intro hnil
    simp only [extract_task_details, hnil, searchP1_nil, searchP2_nil, searchP3_nil]
    simp

/-- Witness for C2: `"hello"` matches no template (it contains no
whitespace at all) and comes back as the whole title with the one-hour
default. -/
theorem claim_C2_witness :
    extract_task_details (fun _ => (none : Option Int)) "hello".toList =
      (some "hello".toList, none, some 60) ∧
    extract_task_details (fun _ => (none : Option Int)) "hello".toList ≠
      (none, none, none) := by
  have h := claim_C2 (fun _ => (none : Option Int)) "hello".toList
  exact ⟨(h.1 (by decide)).1 (by rfl) (by rfl) (by rfl), (h.1 (by decide)).2⟩

/-- The duration-bearing template match the extractor will use: template
1 if it fires, else template 2. -/
structure UnitMatch where
  g1 : List Char
  n : Nat
  unit : List Char
deriving Repr, DecidableEq

/-- Projection of the first duration-bearing template match (template 1,
else template 2), mirroring the order `extract_task_details` tries them. -/
def firstUnitMatch (t : List Char) : Option UnitMatch :=
  match searchP1 t with
  | some m => some ⟨m.g1, m.n, m.unit⟩
  | none =>
    match searchP2 t with
    | some m => some ⟨m.g1, m.n, m.unit⟩
    | none => none

/-- C7: whenever a duration-bearing template matches with a unit whose
lower-cased text contains `hour` or `hr`, the extractor returns exactly
`n` hours (`60 * n` minutes) and a non-empty title. -/
theorem claim_C7 {α : Type} (dp : List Char → Option α) (s : List Char)
    (m : UnitMatch) (hm : firstUnitMatch (pyStrip s) = some m)
    (hu : hourUnit m.unit = true) :
    (extract_task_details dp s).2.2 = some (60 * m.n) ∧
    ∃ ttl, (extract_task_details dp s).1 = some ttl ∧ ttl ≠ [] := by
  obtain ⟨mg, mn, mu⟩ := m
  unfold firstUnitMatch at hm
  cases h1 : searchP1 (pyStrip s) with
  | some m1 =>
    rw [h1] at hm
    injection hm with hm'
    simp only [UnitMatch.mk.injEq] at hm'
    obtain ⟨e1, e2, e3⟩ := hm'
    obtain ⟨r, hr, hrm⟩ := Option.map_eq_some'.mp h1
    constructor
    · simp only [extract_task_details, h1]
      rw [← e2]
      unfold durOf
      rw [e3, if_pos hu]
    · refine ⟨pyStrip m1.g1, by simp only [extract_task_details, h1], ?_⟩
      have hne := searchGen_strip_title post1 s r hr
      have e : r.1 = m1.g1 := congrArg M1.g1 hrm
      exact e ▸ hne
  | none =>
    rw [h1] at hm
    cases h2 : searchP2 (pyStrip s) with
    | some m2 =>
      rw [h2] at hm
      injection hm with hm'
      simp only [UnitMatch.mk.injEq] at hm'
      obtain ⟨e1, e2, e3⟩ := hm'
      obtain ⟨r, hr, hrm⟩ := Option.map_eq_some'.mp h2
      constructor
      · simp only [extract_task_details, h1, h2]
        rw [← e2]
        unfold durOf
        rw [e3, if_pos hu]
      · refine ⟨pyStrip m2.g1, by simp only [extract_task_details, h1, h2], ?_⟩
        have hne := searchGen_strip_title post2 s r hr
        have e : r.1 = m2.g1 := congrArg M2.g1 hrm
        exact e ▸ hne
    | none =>
      rw [h2] at hm
      cases hm

/-- Witness for C7: `"Study AI for 2 hours tomorrow at 4pm"` is matched
by template 2 with `n = 2`, unit `hours`, and yields a 120-minute
duration and the non-empty title `Study AI`. -/
theorem claim_C7_witness :
    (extract_task_details (fun _ => (none : Option Int))
        "Study AI for 2 hours tomorrow at 4pm".toList).2.2 = some (60 * 2) ∧
    ∃ ttl, (extract_task_details (fun _ => (none : Option Int))
        "Study AI for 2 hours tomorrow at 4pm".toList).1 = some ttl ∧ ttl ≠ [] :=
  claim_C7 (fun _ => (none : Option Int))
    "Study AI for 2 hours tomorrow at 4pm".toList
    ⟨"Study AI".toList, 2, "hours".toList⟩ (by rfl) (by rfl)

/-- C3 as stated is false: the clarification branch returns
`data.get("question")` without any check, so the well-formed oracle
response `{"status": "clarification"}` — a response with a missing
required field — yields `(None, None, None, None)`: the first three
components are `None` but the fourth carries no message at all, instead
of a non-empty human-readable message. -/
theorem claim_C3_counterexample :
    call_deepseek true
      (.good (.jobj [("status".toList, .jstr "clarification".toList)]))
      (fun _ => none) = (none, none, none, none) ∧
    ∀ m : List Char,
      (call_deepseek true
        (.good (.jobj [("status".toList, .jstr "clarification".toList)]))
        (fun _ => none)).2.2.2 ≠ some (.jstr m) := by
  constructor
  · rfl
  · intro m h
    cases h

/-- Failure-message contract of `call_deepseek` for a given request
outcome: on a clarification response the fourth component is exactly the
`question` field; on every other failure it is a non-empty message
string. -/
def failMsgSpec (hasKey : Bool) (reply : OracleReply) (q : DSQuad) : Prop :=
  match hasKey, reply with
  | true, .good (.jobj fs) =>
    if isClarStatus (jget fs "status".toList) then
      q.2.2.2 = jget fs "question".toList
    else ∃ m, q.2.2.2 = some (.jstr m) ∧ m ≠ []
  | _, _ => ∃ m, q.2.2.2 = some (.jstr m) ∧ m ≠ []

/-- Branch lemma: the clarification branch of `call_deepseek`. -/
theorem call_deepseek_clar (fs : List (List Char × JVal))
    (pt : List Char → Option Int)
    (h : isClarStatus (jget fs "status".toList) = true) :
    call_deepseek true (.good (.jobj fs)) pt =
      (none, none, none, jget fs "question".toList) := by
  unfold call_deepseek
  rw [if_neg (by decide)]
  dsimp only
  rw [if_pos h]

/-- Branch lemma: the completion branch of `call_deepseek`. -/
theorem call_deepseek_complete (fs : List (List Char × JVal))
    (pt : List Char → Option Int)
    (h : isClarStatus (jget fs "status".toList) = false) :
    call_deepseek true (.good (.jobj fs)) pt = processComplete pt fs := by
  unfold call_deepseek
  rw [if_neg (by decide)]
  dsimp only
  rw [if_neg (by rw [h]; decide)]

/-- The completion branch always yields either the success shape or the
all-`None` failure with a non-empty message string. -/
theorem processComplete_spec (pt : List Char → Option Int)
    (fs : List (List Char × JVal)) :
    (∃ t st d, processComplete pt fs = (some t, some st, some d, none)) ∨
    ((processComplete pt fs).1 = none ∧ (processComplete pt fs).2.1 = none ∧
      (processComplete pt fs).2.2.1 = none ∧
      ∃ m, (processComplete pt fs).2.2.2 = some (.jstr m) ∧ m ≠ []) := by
  cases hty : (jget fs "title".toList).getD (.jstr []) with
  | jstr t0 =>
    by_cases htemp : (pyStrip t0).isEmpty = true
    · have hpc : processComplete pt fs = (none, none, none,
          some (.jstr "Could not extract task title. Please provide more details.".toList)) := by
        unfold processComplete
        rw [hty]
        dsimp only
        rw [if_pos htemp]
      rw [hpc]
      exact Or.inr ⟨rfl, rfl, rfl, _, rfl, by decide⟩
    · have htemp2 : (pyStrip t0).isEmpty = false := by
        revert htemp
        cases (pyStrip t0).isEmpty <;> simp
      by_cases htr : jTruthy ((jget fs "start_time".toList).getD (.jstr [])) = true
      · cases hstv : (jget fs "start_time".toList).getD (.jstr []) with
        | jstr sts =>
          cases hpt : pt sts with
          | none =>
            have hpc : processComplete pt fs = (none, none, none,
                some (.jstr "Could not understand the time. Please specify when you'd like to schedule this task.".toList)) := by
              unfold processComplete
              rw [hty]
              dsimp only
              rw [if_neg (by rw [htemp2]; decide), if_neg (by rw [htr]; decide), hstv]
              dsimp only
              rw [hpt]
            rw [hpc]
            exact Or.inr ⟨rfl, rfl, rfl, _, rfl, by decide⟩
          | some st =>
            cases hdur : (jget fs "duration_minutes".toList).getD (.jnum 60) with
            | jnum n =>
              have hpc : processComplete pt fs =
                  (some (pyStrip t0), some st, some n, none) := by
                unfold processComplete
                rw [hty]
                dsimp only
                rw [if_neg (by rw [htemp2]; decide), if_neg (by rw [htr]; decide), hstv]
                dsimp only
                rw [hpt]
                dsimp only
                rw [hdur]
              rw [hpc]
              exact Or.inl ⟨pyStrip t0, st, n, rfl⟩
            | jbool b =>
              have hpc : processComplete pt fs =
                  (some (pyStrip t0), some st, some (if b then 1 else 0), none) := by
                unfold processComplete
                rw [hty]
                dsimp only
                rw [if_neg (by rw [htemp2]; decide), if_neg (by rw [htr]; decide), hstv]
                dsimp only
                rw [hpt]
                dsimp only
                rw [hdur]
              rw [hpc]
              exact Or.inl ⟨pyStrip t0, st, if b then 1 else 0, rfl⟩
            | jnull =>
              have hpc : processComplete pt fs = (none, none, none,
                  some (.jstr "Error processing request: bad duration".toList)) := by
                unfold processComplete
                rw [hty]
                dsimp only
                rw [if_neg (by rw [htemp2]; decide), if_neg (by rw [htr]; decide), hstv]
                dsimp only
                rw [hpt]
                dsimp only
                rw [hdur]
              rw [hpc]
              exact Or.inr ⟨rfl, rfl, rfl, _, rfl, by decide⟩
            | jstr s2 =>
              have hpc : processComplete pt fs = (none, none, none,
                  some (.jstr "Error processing request: bad duration".toList)) := by
                unfold processComplete
                rw [hty]
                dsimp only
                rw [if_neg (by rw [htemp2]; decide), if_neg (by rw [htr]; decide), hstv]
                dsimp only
                rw [hpt]
                dsimp only
                rw [hdur]
              rw [hpc]
              exact Or.inr ⟨rfl, rfl, rfl, _, rfl, by decide⟩
            | jarr xs =>
              have hpc : processComplete pt fs = (none, none, none,
                  some (.jstr "Error processing request: bad duration".toList)) := by
                unfold processComplete
                rw [hty]
                dsimp only
                rw [if_neg (by rw [htemp2]; decide), if_neg (by rw [htr]; decide), hstv]
                dsimp only
                rw [hpt]
                dsimp only
                rw [hdur]
              rw [hpc]
              exact Or.inr ⟨rfl, rfl, rfl, _, rfl, by decide⟩
            | jobj fs2 =>
              have hpc : processComplete pt fs = (none, none, none,
                  some (.jstr "Error processing request: bad duration".toList)) := by
                unfold processComplete
                rw [hty]
                dsimp only
                rw [if_neg (by rw [htemp2]; decide), if_neg (by rw [htr]; decide), hstv]
                dsimp only
                rw [hpt]
                dsimp only
                rw [hdur]
              rw [hpc]
              exact Or.inr ⟨rfl, rfl, rfl, _, rfl, by decide⟩
        | jnull =>
          rw [hstv] at htr
          exact absurd htr (by decide)
        | jbool b =>
          have hpc : processComplete pt fs = (none, none, none,
              some (.jstr "Error processing request: bad start_time".toList)) := by
            unfold processComplete
            rw [hty]
            dsimp only
            rw [if_neg (by rw [htemp2]; decide), if_neg (by rw [htr]; decide), hstv]
          rw [hpc]
          exact Or.inr ⟨rfl, rfl, rfl, _, rfl, by decide⟩
        | jnum n =>
          have hpc : processComplete pt fs = (none, none, none,
              some (.jstr "Error processing request: bad start_time".toList)) := by
            unfold processComplete
            rw [hty]
            dsimp only
            rw [if_neg (by rw [htemp2]; decide), if_neg (by rw [htr]; decide), hstv]
          rw [hpc]
          exact Or.inr ⟨rfl, rfl, rfl, _, rfl, by decide⟩
        | jarr xs =>
          have hpc : processComplete pt fs = (none, none, none,
              some (.jstr "Error processing request: bad start_time".toList)) := by
            unfold processComplete
            rw [hty]
            dsimp only
            rw [if_neg (by rw [htemp2]; decide), if_neg (by rw [htr]; decide), hstv]
          rw [hpc]
          exact Or.inr ⟨rfl, rfl, rfl, _, rfl, by decide⟩
        | jobj fs2 =>
          have hpc : processComplete pt fs = (none, none, none,
              some (.jstr "Error processing request: bad start_time".toList)) := by
            unfold processComplete
            rw [hty]
            dsimp only
            rw [if_neg (by rw [htemp2]; decide), if_neg (by rw [htr]; decide), hstv]
          rw [hpc]
          exact Or.inr ⟨rfl, rfl, rfl, _, rfl, by decide⟩
      · have htr2 : jTruthy ((jget fs "start_time".toList).getD (.jstr [])) = false := by
          revert htr
          cases jTruthy ((jget fs "start_time".toList).getD (.jstr [])) <;> simp
        have hpc : processComplete pt fs = (none, none, none,
            some (.jstr "Could not understand the time. Please specify when you'd like to schedule this task.".toList)) := by
          unfold processComplete
          rw [hty]
          dsimp only
          rw [if_neg (by rw [htemp2]; decide), if_pos (by rw [htr2]; decide)]
        rw [hpc]
        exact Or.inr ⟨rfl, rfl, rfl, _, rfl, by decide⟩
  | jnull =>
    have hpc : processComplete pt fs = (none, none, none,
        some (.jstr "Error processing request: bad title".toList)) := by
      unfold processComplete
      rw [hty]
    rw [hpc]
    exact Or.inr ⟨rfl, rfl, rfl, _, rfl, by decide⟩
  | jbool b =>
    have hpc : processComplete pt fs = (none, none, none,
        some (.jstr "Error processing request: bad title".toList)) := by
      unfold processComplete
      rw [hty]
    rw [hpc]
    exact Or.inr ⟨rfl, rfl, rfl, _, rfl, by decide⟩
  | jnum n =>
    have hpc : processComplete pt fs = (none, none, none,
        some (.jstr "Error processing request: bad title".toList)) := by
      unfold processComplete
      rw [hty]
    rw [hpc]
    exact Or.inr ⟨rfl, rfl, rfl, _, rfl, by decide⟩
  | jarr xs =>
    have hpc : processComplete pt fs = (none, none, none,
        some (.jstr "Error processing request: bad title".toList)) := by
      unfold processComplete
      rw [hty]
    rw [hpc]
    exact Or.inr ⟨rfl, rfl, rfl, _, rfl, by decide⟩
  | jobj fs2 =>
    have hpc : processComplete pt fs = (none, none, none,
        some (.jstr "Error processing request: bad title".toList)) := by
      unfold processComplete
      rw [hty]
    rw [hpc]
    exact Or.inr ⟨rfl, rfl, rfl, _, rfl, by decide⟩

/-- C3 amended: every call returns a 4-tuple and (being total) never
raises; the result is either a success `(some title, some start,
some duration, none)` or a failure with the first three components
`None`; on every failure other than the clarification pass-through the
fourth component is a non-empty message string, while a clarification
response passes its `question` field through verbatim (so a missing or
empty question yields no usable message). -/
theorem claim_C3_amended (hasKey : Bool) (reply : OracleReply)
    (parseTime : List Char → Option Int) :
    (∃ t st d, call_deepseek hasKey reply parseTime = (some t, some st, some d, none)) ∨
    ((call_deepseek hasKey reply parseTime).1 = none ∧
      (call_deepseek hasKey reply parseTime).2.1 = none ∧
      (call_deepseek hasKey reply parseTime).2.2.1 = none ∧
      failMsgSpec hasKey reply (call_deepseek hasKey reply parseTime)) := by
  cases hasKey with
  | false =>
    right
    exact ⟨rfl, rfl, rfl, ⟨_, rfl, by decide⟩⟩
  | true =>
    cases reply with
    | netError e =>
      right
      refine ⟨rfl, rfl, rfl, ⟨"Network error: ".toList ++ e, rfl, ?_⟩⟩
      exact List.append_ne_nil_of_left_ne_nil (by decide) e
    | badEnvelope e =>
      right
      refine ⟨rfl, rfl, rfl, ⟨"Error processing request: ".toList ++ e, rfl, ?_⟩⟩
      exact List.append_ne_nil_of_left_ne_nil (by decide) e
    | badJson =>
      right
      exact ⟨rfl, rfl, rfl, ⟨_, rfl, by decide⟩⟩
    | good j =>
      cases j with
      | jobj fs =>
        by_cases hclar : isClarStatus (jget fs "status".toList) = true
        · right
          rw [call_deepseek_clar fs parseTime hclar]
          refine ⟨rfl, rfl, rfl, ?_⟩
          unfold failMsgSpec
          dsimp only
          rw [if_pos hclar]
        · have hclar' : isClarStatus (jget fs "status".toList) = false := by
            revert hclar
            cases isClarStatus (jget fs "status".toList) <;> simp
          rw [call_deepseek_complete fs parseTime hclar']
          rcases processComplete_spec parseTime fs with hok | ⟨h1, h2, h3, m, hm, hmne⟩
          · exact Or.inl hok
          · right
            refine ⟨h1, h2, h3, ?_⟩
            unfold failMsgSpec
            dsimp only
            rw [if_neg (by rw [hclar']; simp)]
            exact ⟨m, hm, hmne⟩
      | jnull =>
        right
        exact ⟨rfl, rfl, rfl, ⟨_, rfl, by decide⟩⟩
      | jbool b =>
        right
        exact ⟨rfl, rfl, rfl, ⟨_, rfl, by decide⟩⟩
      | jnum n =>
        right
        exact ⟨rfl, rfl, rfl, ⟨_, rfl, by decide⟩⟩
      | jstr s2 =>
        right
        exact ⟨rfl, rfl, rfl, ⟨_, rfl, by decide⟩⟩
      | jarr xs =>
        right
        exact ⟨rfl, rfl, rfl, ⟨_, rfl, by decide⟩⟩


/-- Witness for C3 (amended): a malformed-JSON reply produces the
all-`None` failure shape with a non-empty message. -/
theorem claim_C3_witness :
    (∃ t st d, call_deepseek true .badJson (fun _ => none) =
      (some t, some st, some d, none)) ∨
    ((call_deepseek true .badJson (fun _ => none)).1 = none ∧
      (call_deepseek true .badJson (fun _ => none)).2.1 = none ∧
      (call_deepseek true .badJson (fun _ => none)).2.2.1 = none ∧
      ∃ m, (call_deepseek true .badJson (fun _ => none)).2.2.2 =
        some (.jstr m) ∧ m ≠ []) :=
  claim_C3_amended true .badJson (fun _ => none)

/-- C6: the handler performs at most one insertion; on every failure path
it performs none and renders a single non-empty message; and an insertion
happens only when every check passed: non-empty input, no clarification
request pending, truthy title and duration, a resolved start time, start
not in the past, no overlapping event and no duplicate title match — and
the inserted event is built from exactly those values. -/
theorem claim_C6 (now today : Int)
    (lp : Option (List Char) × Option Int × Option Int)
    (ai : Option (List Char) × Option Int × Option Int × Option (List Char))
    (todayEvs tmrwEvs : List GEvent)
    (conflictsAt : Int → Int → List (List Char))
    (dupsFor : List Char → List (List Char))
    (rawTask : List Char) (r : HandlerResult)
    (hr : index_post now today lp ai todayEvs tmrwEvs conflictsAt dupsFor rawTask = r) :
    (r.commits = [] ∨ ∃ c, r.commits = [c]) ∧
    (r.commits = [] → ∃ m, r.message = some m ∧ m ≠ []) ∧
    (∀ c, c ∈ r.commits →
      pyStrip rawTask ≠ [] ∧
      optStrTruthy (effectiveQuad lp ai).2.2.2 = false ∧
      optStrTruthy (effectiveQuad lp ai).1 = true ∧
      optDurTruthy (effectiveQuad lp ai).2.2.1 = true ∧
      resolvedStart today ((effectiveQuad lp ai).2.2.1.getD 0) todayEvs tmrwEvs
        (effectiveQuad lp ai).2.1 = some c.start ∧
      ¬ c.start < now ∧
      conflictsAt c.start c.stop = [] ∧
      dupsFor c.title = [] ∧
      c.title = (effectiveQuad lp ai).1.getD [] ∧
      c.stop = c.start + (effectiveQuad lp ai).2.2.1.getD 0) := by
  subst hr
  unfold index_post
  by_cases h1 : (pyStrip rawTask).isEmpty = true
  · rw [if_pos h1]
    exact ⟨Or.inl rfl, fun _ => ⟨_, rfl, by decide⟩, fun c hc => absurd hc (by simp)⟩
  · rw [if_neg h1]
    have h1' : pyStrip rawTask ≠ [] := by
      intro hn
      rw [hn] at h1
      exact h1 rfl
    dsimp only
    by_cases h2 : optStrTruthy (effectiveQuad lp ai).2.2.2 = true
    · rw [if_pos h2]
      refine ⟨Or.inl rfl, fun _ => ⟨_, rfl, ?_⟩, fun c hc => absurd hc (by simp)⟩
      exact List.append_ne_nil_of_left_ne_nil (by decide) _
    · have h2' : optStrTruthy (effectiveQuad lp ai).2.2.2 = false := by
        revert h2
        cases optStrTruthy (effectiveQuad lp ai).2.2.2 <;> simp
      rw [if_neg (by rw [h2']; decide)]
      by_cases h3 : (optStrTruthy (effectiveQuad lp ai).1 &&
          optDurTruthy (effectiveQuad lp ai).2.2.1) = true
      · rw [if_neg (by rw [h3]; decide)]
        obtain ⟨h3a, h3b⟩ := Bool.and_eq_true_iff.mp h3
        cases hres : resolvedStart today ((effectiveQuad lp ai).2.2.1.getD 0)
            todayEvs tmrwEvs (effectiveQuad lp ai).2.1 with
        | none =>
          exact ⟨Or.inl rfl, fun _ => ⟨_, rfl, by decide⟩, fun c hc => absurd hc (by simp)⟩
        | some st =>
          dsimp only
          by_cases h4 : st < now
          · rw [if_pos h4]
            exact ⟨Or.inl rfl, fun _ => ⟨_, rfl, by decide⟩,
              fun c hc => absurd hc (by simp)⟩
          · rw [if_neg h4]
            by_cases h5 : (conflictsAt st
                (st + (effectiveQuad lp ai).2.2.1.getD 0)).isEmpty = true
            · rw [if_neg (by rw [h5]; decide)]
              by_cases h6 : (dupsFor ((effectiveQuad lp ai).1.getD [])).isEmpty = true
              · rw [if_neg (by rw [h6]; decide)]
                refine ⟨Or.inr ⟨_, rfl⟩, fun hc => absurd hc (by simp), fun c hc => ?_⟩
                rw [List.mem_singleton] at hc
                subst hc
                refine ⟨h1', h2', h3a, h3b, rfl, h4, ?_, ?_, rfl, rfl⟩
                · exact List.isEmpty_iff.mp h5
                · exact List.isEmpty_iff.mp h6
              · have h6' : (dupsFor ((effectiveQuad lp ai).1.getD [])).isEmpty = false := by
                  revert h6
                  cases (dupsFor ((effectiveQuad lp ai).1.getD [])).isEmpty <;> simp
                rw [if_pos (by rw [h6']; decide)]
                refine ⟨Or.inl rfl, fun _ => ⟨_, rfl, ?_⟩, fun c hc => absurd hc (by simp)⟩
                exact List.append_ne_nil_of_left_ne_nil
                  (List.append_ne_nil_of_left_ne_nil (by decide) _) _
            · have h5' : (conflictsAt st
                  (st + (effectiveQuad lp ai).2.2.1.getD 0)).isEmpty = false := by
                revert h5
                cases (conflictsAt st (st + (effectiveQuad lp ai).2.2.1.getD 0)).isEmpty <;> simp
              rw [if_pos (by rw [h5']; decide)]
              refine ⟨Or.inl rfl, fun _ => ⟨_, rfl, ?_⟩, fun c hc => absurd hc (by simp)⟩
              exact List.append_ne_nil_of_left_ne_nil
                (List.append_ne_nil_of_left_ne_nil (by decide) _) _
      · have h3' : (optStrTruthy (effectiveQuad lp ai).1 &&
            optDurTruthy (effectiveQuad lp ai).2.2.1) = false := by
          revert h3
          cases (optStrTruthy (effectiveQuad lp ai).1 &&
            optDurTruthy (effectiveQuad lp ai).2.2.1) <;> simp
        rw [if_pos (by rw [h3']; decide)]
        exact ⟨Or.inl rfl, fun _ => ⟨_, rfl, by decide⟩, fun c hc => absurd hc (by simp)⟩

/-- Witness for C6: the all-checks-pass run inserts exactly the parsed
event and the success message. -/
theorem claim_C6_witness :
    ((index_post 0 0 (some "x".toList, some 600, some 60) (none, none, none, none)
        [] [] (fun _ _ => []) (fun _ => []) "task x".toList).commits = [] ∨
      ∃ c, (index_post 0 0 (some "x".toList, some 600, some 60) (none, none, none, none)
        [] [] (fun _ _ => []) (fun _ => []) "task x".toList).commits = [c]) ∧
    ((index_post 0 0 (some "x".toList, some 600, some 60) (none, none, none, none)
        [] [] (fun _ _ => []) (fun _ => []) "task x".toList).commits = [] →
      ∃ m, (index_post 0 0 (some "x".toList, some 600, some 60) (none, none, none, none)
        [] [] (fun _ _ => []) (fun _ => []) "task x".toList).message = some m ∧ m ≠ []) ∧
    (∀ c, c ∈ (index_post 0 0 (some "x".toList, some 600, some 60) (none, none, none, none)
        [] [] (fun _ _ => []) (fun _ => []) "task x".toList).commits →
      pyStrip "task x".toList ≠ [] ∧
      optStrTruthy (effectiveQuad (some "x".toList, some 600, some 60)
        (none, none, none, none)).2.2.2 = false ∧
      optStrTruthy (effectiveQuad (some "x".toList, some 600, some 60)
        (none, none, none, none)).1 = true ∧
      optDurTruthy (effectiveQuad (some "x".toList, some 600, some 60)
        (none, none, none, none)).2.2.1 = true ∧
      resolvedStart 0 ((effectiveQuad (some "x".toList, some 600, some 60)
        (none, none, none, none)).2.2.1.getD 0) [] []
        (effectiveQuad (some "x".toList, some 600, some 60)
          (none, none, none, none)).2.1 = some c.start ∧
      ¬ c.start < 0 ∧
      (fun (_ _ : Int) => ([] : List (List Char))) c.start c.stop = [] ∧
      (fun (_ : List Char) => ([] : List (List Char))) c.title = [] ∧
      c.title = (effectiveQuad (some "x".toList, some 600, some 60)
        (none, none, none, none)).1.getD [] ∧
      c.stop = c.start + (effectiveQuad (some "x".toList, some 600, some 60)
        (none, none, none, none)).2.2.1.getD 0) :=
  claim_C6 0 0 (some "x".toList, some 600, some 60) (none, none, none, none)
    [] [] (fun _ _ => []) (fun _ => []) "task x".toList _ rfl

end AICal
